import Mathlib

/-!
Verification development for the NHL data pipeline
(`scripts/fetch_nhl_all.py`).

The script is shallowly embedded: JSON payloads become the inductive
`JVal`; Python dictionary lookups, truthiness, `or`-chains, `int()`
coercion and exceptions are modelled explicitly (`exGet`, `truthy`,
`pyOr`, `pyInt`, `Except String`); the HTTP layer is an oracle giving
the outcome of each attempt (`jget`) or of each logical fetch
(`Option JVal`, as the Python `jget` returns the decoded payload or
`None`).  File writes are modelled at two levels: `dump_json` as a
sequence of file-system operations (for the atomicity analysis), and
the orchestrator `main` as an ordered list of named artifacts written.
-/

set_option autoImplicit false

namespace NhlPipeline

/-- A JSON value as Python sees it after `json` decoding: `None`, `bool`,
`int`, `str`, `list`, `dict` (dicts as ordered association lists, as
Python dicts preserve insertion order). -/
inductive JVal where
  | null
  | bool (b : Bool)
  | num (n : Int)
  | str (s : String)
  | arr (xs : List JVal)
  | obj (kvs : List (String × JVal))
deriving Repr, Inhabited

/-- Python truthiness: `None`, `False`, `0`, `""`, `[]`, `\x7b\x7d` are falsy. -/
def truthy : JVal → Bool
  | .null => false
  | .bool b => b
  | .num n => if n = 0 then false else true
  | .str s => if s = "" then false else true
  | .arr xs => !xs.isEmpty
  | .obj kvs => !kvs.isEmpty

/-- Python `a or b`: `a` if truthy, otherwise `b`. -/
def pyOr (a b : JVal) : JVal := if truthy a then a else b

/-- First value stored under a key in a dict, `none` when the key is absent. -/
def objFind? : List (String × JVal) → String → Option JVal
  | [], _ => none
  | (k, v) :: rest, key => if k = key then some v else objFind? rest key

/-- Python `d.get(k)`: the stored value, or `None` when absent; raises
`AttributeError` when the receiver is not a dict. -/
def exGet (v : JVal) (k : String) : Except String JVal :=
  match v with
  | .obj kvs => .ok ((objFind? kvs k).getD .null)
  | _ => .error "AttributeError"

/-- Python `d.get(k, default)`: the stored value (even if `None`), or the
default only when the key is absent; raises on non-dict receivers. -/
def exGetD (v : JVal) (k : String) (d : JVal) : Except String JVal :=
  match v with
  | .obj kvs => .ok ((objFind? kvs k).getD d)
  | _ => .error "AttributeError"

/-- Python iteration `for x in v`: lists yield elements, dicts yield keys,
strings yield characters; other values raise `TypeError`. -/
def iterPy : JVal → Except String (List JVal)
  | .arr xs => .ok xs
  | .obj kvs => .ok (kvs.map (fun kv => JVal.str kv.1))
  | .str s => .ok (s.toList.map (fun c => JVal.str (String.singleton c)))
  | _ => .error "TypeError"

/-- Digits of a decimal literal, `none` if empty or a non-digit occurs. -/
def digitsToNat? : List Char → Option Nat
  | [] => none
  | cs => if cs.all (·.isDigit) then
      some (cs.foldl (fun acc c => acc * 10 + (c.toNat - '0'.toNat)) 0)
    else none

/-- Python `int(v)`: identity on ints, `True`/`False` to `1`/`0`, decimal
string parsing (with optional sign and surrounding whitespace), and
`TypeError`/`ValueError` otherwise. -/
def pyInt (v : JVal) : Except String Int :=
  match v with
  | .num n => .ok n
  | .bool b => .ok (if b then 1 else 0)
  | .str s =>
    match s.trim.toList with
    | '-' :: rest =>
      match digitsToNat? rest with
      | some m => .ok (-(m : Int))
      | none => .error "ValueError"
    | '+' :: rest =>
      match digitsToNat? rest with
      | some m => .ok (m : Int)
      | none => .error "ValueError"
    | cs =>
      match digitsToNat? cs with
      | some m => .ok (m : Int)
      | none => .error "ValueError"
  | _ => .error "TypeError"

/-- Python `x == n` for `n` a stored `int` game identifier: numbers compare
by value, `True`/`False` compare as `1`/`0`, everything else is unequal. -/
def pyEqInt (v : JVal) (n : Int) : Bool :=
  match v with
  | .num m => m = n
  | .bool b => (if b then (1 : Int) else 0) = n
  | _ => false

/-- Python `isinstance(v, int)` (Python `bool` is a subclass of `int`). -/
def pyIsInt : JVal → Bool
  | .num _ => true
  | .bool _ => true
  | _ => false

/-! ## Transport: `jget`

`jget` (source lines 63-77) performs up to `retries` attempts.  One
attempt either raises inside the `try` (network error from
`SESSION.get`, the explicit `raise` on status `>= 500`,
`raise_for_status()` on status `>= 400`, or `r.json()` on an
undecodable body) or returns the decoded payload.  On the last failed
attempt it returns `None`.  The outcome of each attempt is an oracle
`Nat → HttpResp`. -/

/-- Outcome of one HTTP attempt: a raised network error, or a response
with a status code, a flag telling whether the body decodes as JSON,
and the decoded payload when it does. -/
inductive HttpResp where
  | netErr
  | resp (status : Nat) (bodyOk : Bool) (payload : JVal)

/-- The result of one attempt inside `jget`'s `try`: `some payload` when
the attempt returns, `none` when it raises (network error, status
`>= 500` raised explicitly, `raise_for_status` on `>= 400`, or a body
that fails to decode). -/
def attemptResult : HttpResp → Option JVal
  | .netErr => none
  | .resp s ok p =>
    if 500 ≤ s then none
    else if 400 ≤ s then none
    else if ok then some p else none

/-- The retry loop of `jget`, starting at attempt index `i` with the given
number of attempts remaining.  Returns the final result together with
the number of attempts actually made. -/
def jgetAux (respOf : Nat → HttpResp) (i : Nat) : Nat → Option JVal × Nat
  | 0 => (none, 0)
  | fuel + 1 =>
    match attemptResult (respOf i) with
    | some p => (some p, 1)
    | none =>
      if fuel = 0 then (none, 1)
      else
        let r := jgetAux respOf (i + 1) fuel
        (r.1, r.2 + 1)

/-- `jget(url, retries=RETRIES)`: result and number of attempts made. -/
def jget (respOf : Nat → HttpResp) (retries : Nat) : Option JVal × Nat :=
  jgetAux respOf 0 retries

/-- Source constant `RETRIES = 3`. -/
def RETRIES : Nat := 3

/-! ## Artifact writes: `dump_json`

`dump_json` (source lines 55-57) is `open(path, "w")` followed by
`json.dump(obj, f)`: the final path is truncated in place and the
serialized text is then written to it.  We model the file system as an
association list from paths to contents and the write as the sequence
of operations it performs. -/

/-- A file-system operation: truncating open in `"w"` mode, or appending
a chunk of data to an open file. -/
inductive FsOp where
  | openTrunc (path : String)
  | writeChunk (path : String) (data : String)
deriving Repr, DecidableEq

/-- The path an operation touches. -/
def FsOp.path : FsOp → String
  | .openTrunc p => p
  | .writeChunk p _ => p

/-- File system: paths mapped to contents. -/
abbrev Fs := List (String × String)

/-- Content at a path, `none` when the file is absent. -/
def fsGet : Fs → String → Option String
  | [], _ => none
  | (q, c) :: rest, p => if q = p then some c else fsGet rest p

/-- Store content at a path, replacing any previous content. -/
def fsSet : Fs → String → String → Fs
  | [], p, c => [(p, c)]
  | (q, d) :: rest, p, c => if q = p then (p, c) :: rest else (q, d) :: fsSet rest p c

/-- Effect of one operation on the file system. -/
def applyOp (fs : Fs) : FsOp → Fs
  | .openTrunc p => fsSet fs p ""
  | .writeChunk p d => fsSet fs p (((fsGet fs p).getD "") ++ d)

/-- Effect of a sequence of operations. -/
def applyOps (fs : Fs) (ops : List FsOp) : Fs := ops.foldl applyOp fs

/-- The operations performed by `dump_json(obj, path)` when `obj`
serializes to `ser`: open the final path with truncation, then write
the serialized text into it.  No temporary file, no rename. -/
def dump_json (path : String) (ser : String) : List FsOp :=
  [FsOp.openTrunc path, FsOp.writeChunk path ser]

/-! ## Entity harvester: the inner `harvest` of `main`

Source lines 180-209.  `players_seen` is a Python dict from player id
to a dict of attributes; we model it as an ordered association list,
and the per-player attribute dict (`rec`) likewise (`PyDict`). -/

/-- A Python dict with string keys, in insertion order. -/
abbrev PyDict := List (String × JVal)

/-- Value stored under a key, `none` when absent. -/
def dictLookup (d : PyDict) (k : String) : Option JVal := objFind? d k

/-- Python `d[k] = v`: overwrite in place when the key exists (keeping its
position), append otherwise. -/
def setKey : PyDict → String → JVal → PyDict
  | [], k, v => [(k, v)]
  | (k0, v0) :: rest, k, v =>
    if k0 = k then (k, v) :: rest else (k0, v0) :: setKey rest k v

/-- Python `d.update(u)`: assign every key of `u` into `d`, in order. -/
def dictUpdate (d u : PyDict) : PyDict :=
  u.foldl (fun acc kv => setKey acc kv.1 kv.2) d

/-- The run-wide `players_seen` accumulator: player id to attribute dict,
in insertion order. -/
abbrev PlayersSeen := List (Int × PyDict)

/-- `players_seen.get(pid)`. -/
def psLookup : PlayersSeen → Int → Option PyDict
  | [], _ => none
  | (i, d) :: rest, pid => if i = pid then some d else psLookup rest pid

/-- `players_seen[pid] = rec`: overwrite in place, append when new. -/
def psInsert : PlayersSeen → Int → PyDict → PlayersSeen
  | [], pid, d => [(pid, d)]
  | (i, d0) :: rest, pid, d =>
    if i = pid then (pid, d) :: rest else (i, d0) :: psInsert rest pid d

/-- Python `x or expr` where `expr` may itself raise: keep `x` when truthy,
otherwise evaluate the alternative (short-circuit). -/
def orElseGet (x : JVal) (alt : Except String JVal) : Except String JVal :=
  if truthy x then .ok x else alt

/-- `p.get("playerId") or p.get("id")` (source line 186). -/
def pidProbe (p : JVal) : Except String JVal := do
  let a ← exGet p "playerId"
  orElseGet a (exGet p "id")

/-- The attribute dict built at source lines 191-200, in the evaluation
order of the Python dict literal.  `p.get("name", default).get("default")`
raises when the stored name value is not a dict, same for `position`;
these faults propagate out of `harvest` into the enclosing
`try`/`except`. -/
def buildFields (p : JVal) (teamId : JVal) (pid : Int) : Except String PyDict := do
  let n0 ← exGetD p "name" (.obj [])
  let n1 ← exGet n0 "default"
  let fullName ← orElseGet n1 (exGet p "name")
  let sw0 ← exGet p "sweaterNumber"
  let sw ← orElseGet sw0 (exGet p "jerseyNumber")
  let pos0 ← exGet p "position"
  let pos1 ← exGet (pyOr pos0 (.obj [])) "abbrev"
  let pos ← orElseGet pos1 (exGet p "position")
  let sc0 ← exGet p "shootsCatches"
  let sc1 ← orElseGet sc0 (exGet p "shoots")
  let sc ← orElseGet sc1 (exGet p "catches")
  let ht ← exGet p "height"
  let wt ← exGet p "weight"
  pure [("personId", JVal.num pid), ("fullName", fullName), ("teamId", teamId),
        ("sweaterNumber", sw), ("position", pos), ("shootsCatches", sc),
        ("height", ht), ("weight", wt)]

/-- The keys of the attribute dict, in source order. -/
def recFieldKeys : List String :=
  ["personId", "fullName", "teamId", "sweaterNumber", "position",
   "shootsCatches", "height", "weight"]

/-- One iteration of the `for p in players` loop (source lines 185-201):
skip entries whose identifier probe is falsy, otherwise coerce the id,
fetch the previously recorded dict (default empty), update it with the
freshly built fields and store it back. -/
def harvestOne (p : JVal) (teamId : JVal) (st : PlayersSeen) :
    Except String PlayersSeen := do
  let pid0 ← pidProbe p
  if truthy pid0 then do
    let pid ← pyInt pid0
    let rec0 := (psLookup st pid).getD []
    let fl ← buildFields p teamId pid
    pure (psInsert st pid (dictUpdate rec0 fl))
  else
    pure st

/-- The `for p in players` loop.  A raised exception stops the loop but
keeps the updates already applied (Python mutates `players_seen` in
place); the error is reported alongside the state reached. -/
def harvestPlayers (teamId : JVal) : List JVal → PlayersSeen → PlayersSeen × Option String
  | [], st => (st, none)
  | p :: rest, st =>
    match harvestOne p teamId st with
    | .ok st1 => harvestPlayers teamId rest st1
    | .error e => (st, some e)

/-- Source lines 182-184: `(side or \x7b\x7d).get("players") or
(side or \x7b\x7d).get("skaters") or []`, then dict values are taken as the
sequence, and the result is iterated. -/
def playersSeq (side : JVal) : Except String (List JVal) := do
  let side1 := pyOr side (.obj [])
  let a ← exGet side1 "players"
  let b ← orElseGet a (exGet side1 "skaters")
  let c := if truthy b then b else .arr []
  let d := match c with
    | .obj kvs => .arr (kvs.map (fun kv => kv.2))
    | v => v
  iterPy d

/-- `harvest(side, team_id)` (source lines 181-201): resolve the player
sequence, then run the per-player loop.  An exception while resolving
the sequence leaves the accumulator untouched. -/
def harvest (side : JVal) (teamId : JVal) (st : PlayersSeen) :
    PlayersSeen × Option String :=
  match playersSeq side with
  | .error e => (st, some e)
  | .ok ps => harvestPlayers teamId ps st

/-- Source lines 203-205: `teams_blk = (box or \x7b\x7d).get("teams") or \x7b\x7d`,
`home_blk = teams_blk.get("home") or \x7b\x7d`, `away_blk = teams_blk.get("away") or \x7b\x7d`. -/
def boxTeamsBlocks (box : JVal) : Except String (JVal × JVal) := do
  let t0 ← exGet (pyOr box (.obj [])) "teams"
  let tb := pyOr t0 (.obj [])
  let h0 ← exGet tb "home"
  let a0 ← exGet tb "away"
  pure (pyOr h0 (.obj []), pyOr a0 (.obj []))

/-- `blk.get("id") if isinstance(blk.get("id"), int) else None`
(source lines 206-207). -/
def sideTeamId (blk : JVal) : Except String JVal := do
  let v ← exGet blk "id"
  pure (if pyIsInt v then v else .null)

/-- The whole `try` block around player harvesting (source lines 180-209):
compute the team blocks, harvest home then away; any raised exception is
absorbed by the `except` (a warning is printed), keeping whatever updates
had already been applied to `players_seen`. -/
def boxExtract (box : JVal) (st : PlayersSeen) : PlayersSeen :=
  match boxTeamsBlocks box with
  | .error _ => st
  | .ok (hb, ab) =>
    match sideTeamId hb with
    | .error _ => st
    | .ok htid =>
      match harvest hb htid st with
      | (st1, some _) => st1
      | (st1, none) =>
        match sideTeamId ab with
        | .error _ => st1
        | .ok atid => (harvest ab atid st1).1

/-! ## Identifier discovery: the schedule sweep

Source lines 120-147.  Each day's fetch outcome is an oracle value
(`Option JVal`, as `jget` returns the decoded payload or `None`).
The sweep threads the pair `(game_pks, game_rows)`. -/

/-- One row of `game_rows` (source lines 135-144). -/
structure ScheduleRow where
  gamePk : Int
  gameDate : JVal
  homeId : JVal
  homeTri : JVal
  awayId : JVal
  awayTri : JVal
  venue : JVal
  gameState : JVal
deriving Repr

/-- `(g.get(outer, default) or default).get(inner)` with the empty dict as
default, the shape used for `homeTeam`, `awayTeam` and `venue`. -/
def nestedGet (g : JVal) (outer inner : String) : Except String JVal := do
  let o ← exGetD g outer (.obj [])
  exGet (pyOr o (.obj [])) inner

/-- The identifier probe `g.get("id") or g.get("gameId") or g.get("gamePk")`
(source line 130). -/
def gpkProbe (g : JVal) : Except String JVal := do
  let a ← exGet g "id"
  let b ← orElseGet a (exGet g "gameId")
  orElseGet b (exGet g "gamePk")

/-- The `game_rows.append(...)` dict of source lines 135-144, evaluated in
source order with `pk` the coerced identifier. -/
def mkRow (g : JVal) (pk : Int) : Except String ScheduleRow := do
  let d0 ← exGet g "startTimeUTC"
  let gameDate ← orElseGet d0 (exGet g "startTime")
  let homeId ← nestedGet g "homeTeam" "id"
  let homeTri ← nestedGet g "homeTeam" "abbrev"
  let awayId ← nestedGet g "awayTeam" "id"
  let awayTri ← nestedGet g "awayTeam" "abbrev"
  let v0 ← nestedGet g "venue" "default"
  let venue ← orElseGet v0 (exGet g "venueName")
  let gameState ← exGet g "gameState"
  pure ⟨pk, gameDate, homeId, homeTri, awayId, awayTri, venue, gameState⟩

/-- `gpk in game_pks`: Python membership of the raw probed value in the
list of stored `int` identifiers. -/
def pyMemInt (v : JVal) (xs : List Int) : Bool := xs.any (fun n => pyEqInt v n)

/-- The sweep state: `(game_pks, game_rows)`. -/
abbrev SweepSt := List Int × List ScheduleRow

/-- One iteration of `for g in wk.get("games", [])` (source lines 129-144):
probe the identifier, skip the entry when the probe is falsy, otherwise
coerce with `int()`, append to `game_pks` unless already present, and
append a `ScheduleRow` unconditionally. -/
def processGame (g : JVal) (st : SweepSt) : Except String SweepSt := do
  let gpk ← gpkProbe g
  if truthy gpk then do
    let pk ← pyInt gpk
    let pks := if pyMemInt gpk st.1 then st.1 else st.1 ++ [pk]
    let row ← mkRow g pk
    pure (pks, st.2 ++ [row])
  else
    pure st

/-- The games of one `gameWeek` entry, in order. -/
def processGames : List JVal → SweepSt → Except String SweepSt
  | [], st => .ok st
  | g :: rest, st => do
    let st1 ← processGame g st
    processGames rest st1

/-- One `wk` entry of `sched["gameWeek"]` (source lines 128-129):
`wk.get("games", [])` is iterated. -/
def processWeek (wk : JVal) (st : SweepSt) : Except String SweepSt := do
  let gs0 ← exGetD wk "games" (.arr [])
  let gs ← iterPy gs0
  processGames gs st

/-- The `for wk in sched["gameWeek"]` loop. -/
def processWeeks : List JVal → SweepSt → Except String SweepSt
  | [], st => .ok st
  | wk :: rest, st => do
    let st1 ← processWeek wk st
    processWeeks rest st1

/-- One day of the sweep (source lines 125-144): a failed fetch (`None`)
or a falsy payload contributes nothing, as does a payload whose
`gameWeek` is not a list; otherwise every week entry is processed. -/
def processDay (sched : Option JVal) (st : SweepSt) : Except String SweepSt :=
  match sched with
  | none => .ok st
  | some s =>
    if truthy s then
      match exGet s "gameWeek" with
      | .error e => .error e
      | .ok gw =>
        match gw with
        | .arr wks => processWeeks wks st
        | _ => .ok st
    else .ok st

/-- The whole `while cur <= end_d` sweep over the fetch outcomes of the
successive days. -/
def sweepFrom : List (Option JVal) → SweepSt → Except String SweepSt
  | [], st => .ok st
  | d :: rest, st => do
    let st1 ← processDay d st
    sweepFrom rest st1

/-- `pandas.DataFrame.drop_duplicates(subset=["gamePk"])` with the default
`keep="first"` (source line 151): the first row of each identifier is
kept, in order; later rows with an already seen identifier are dropped. -/
def dropDupAux (seen : List Int) : List ScheduleRow → List ScheduleRow
  | [] => []
  | r :: rest =>
    if r.gamePk ∈ seen then dropDupAux seen rest
    else r :: dropDupAux (r.gamePk :: seen) rest

/-- The rows of `schedule.csv` derived from `game_rows` at flush time. -/
def scheduleCsvRows (rows : List ScheduleRow) : List ScheduleRow :=
  dropDupAux [] rows

/-! ## Run orchestrator: `main`

Source lines 80-225.  Network outcomes are oracles; the run is modelled
as the ordered list of artifacts written plus the final in-memory
accumulators.  A raised exception aborts the run (`Except.error`). -/

/-- The artifacts `main` can write, one constructor per write site. -/
inductive ArtifactPath where
  | standingsNow
  | standingsCsv
  | teamsCsv
  | scheduleCsv
  | playersCsv
  | gameLanding (gpk : Int)
  | gamePbp (gpk : Int)
  | gameBoxscore (gpk : Int)
  | gameShifts (gpk : Int)
deriving Repr, DecidableEq

/-- The file name each write site uses (source lines 91, 94-96, 111,
151-153, 167, 172, 177, 214, 223). -/
def ArtifactPath.fileName : ArtifactPath → String
  | .standingsNow => "standings_now.json"
  | .standingsCsv => "standings.csv"
  | .teamsCsv => "teams.csv"
  | .scheduleCsv => "schedule.csv"
  | .playersCsv => "players.csv"
  | .gameLanding g => "game_" ++ toString g ++ "_landing.json"
  | .gamePbp g => "game_" ++ toString g ++ "_pbp.json"
  | .gameBoxscore g => "game_" ++ toString g ++ "_boxscore.json"
  | .gameShifts g => "game_" ++ toString g ++ "_shifts.json"

/-- One row of the `team_rows` table (source lines 102-108). -/
structure TeamRow where
  teamId : JVal
  name : JVal
  triCode : JVal
  conference : JVal
  division : JVal
deriving Repr

/-- One iteration of `for row in rows` (source lines 99-108); the unused
`club` binding is still evaluated for its exceptions. -/
def mkTeamRow (row : JVal) : Except String TeamRow := do
  let c0 ← exGetD row "teamAbbrev" (.obj [])
  let _club := pyOr c0 (.obj [])
  let tid ← exGet row "teamId"
  let nm ← exGet row "teamName"
  let tri ← exGet row "teamAbbrev"
  let conf ← exGet row "conferenceName"
  let dv ← exGet row "divisionName"
  pure ⟨tid, nm, tri, conf, dv⟩

/-- The `team_rows` loop over the iterated standings rows. -/
def buildTeamRows : List JVal → Except String (List TeamRow)
  | [] => .ok []
  | r :: rest => do
    let tr ← mkTeamRow r
    let rest1 ← buildTeamRows rest
    pure (tr :: rest1)

/-- The standings section (source lines 88-113): on a truthy payload,
write `standings_now.json`; write `standings.csv` only when
`rows = standings.get("standings", [])` is truthy; build `team_rows`
and write `teams.csv` only when it is non-empty.  An unavailable or
falsy payload only logs a warning.  Returns the writes, the `rows`
value and `team_rows`. -/
def standingsSection (standings : Option JVal) :
    Except String (List ArtifactPath × JVal × List TeamRow) :=
  match standings with
  | none => .ok ([], .null, [])
  | some s =>
    if truthy s then do
      let rows ← exGetD s "standings" (.arr [])
      let w2 : List ArtifactPath :=
        if truthy rows then [ArtifactPath.standingsCsv] else []
      let rowList ← iterPy rows
      let teamRows ← buildTeamRows rowList
      let w3 : List ArtifactPath :=
        if teamRows.isEmpty then [] else [ArtifactPath.teamsCsv]
      pure ([ArtifactPath.standingsNow] ++ w2 ++ w3, rows, teamRows)
    else .ok ([], .null, [])

/-- The per-game fetch outcomes: what `jget` returns for each of the four
entity endpoints of a given game identifier. -/
structure GameFetch where
  landing : Int → Option JVal
  pbp : Int → Option JVal
  box : Int → Option JVal
  shifts : Int → Option JVal

/-- `if payload:` after a fetch — write the artifact only when `jget`
returned a truthy payload. -/
def writeIfTruthy (x : Option JVal) (a : ArtifactPath) : List ArtifactPath :=
  match x with
  | some v => if truthy v then [a] else []
  | none => []

/-- The body of `for idx, gpk in enumerate(game_pks, ...)` (source lines
160-216): landing, play-by-play, boxscore (with player harvesting) and
shifts, each fetched and written independently. -/
def gameStep (f : GameFetch) (gpk : Int) (ps : PlayersSeen) :
    List ArtifactPath × PlayersSeen :=
  let wL := writeIfTruthy (f.landing gpk) (.gameLanding gpk)
  let wP := writeIfTruthy (f.pbp gpk) (.gamePbp gpk)
  let bps : List ArtifactPath × PlayersSeen :=
    match f.box gpk with
    | some b => if truthy b then ([ArtifactPath.gameBoxscore gpk], boxExtract b ps) else ([], ps)
    | none => ([], ps)
  let wS := writeIfTruthy (f.shifts gpk) (.gameShifts gpk)
  (wL ++ wP ++ bps.1 ++ wS, bps.2)

/-- The whole per-game loop over the discovered identifiers. -/
def gameLoop (f : GameFetch) : List Int → PlayersSeen → List ArtifactPath × PlayersSeen
  | [], ps => ([], ps)
  | g :: rest, ps =>
    let (w, ps1) := gameStep f g ps
    let (w2, ps2) := gameLoop f rest ps1
    (w ++ w2, ps2)

/-- The observable result of one run: the ordered artifact writes and the
final accumulators. -/
structure MainRes where
  writes : List ArtifactPath
  stRows : JVal
  teamRows : List TeamRow
  pks : List Int
  rows : List ScheduleRow
  players : PlayersSeen
deriving Repr

/-- `main()` (source lines 80-225) over the fetch oracles: standings
section, schedule sweep, `schedule.csv` written only when `game_rows`
is non-empty (source line 150), per-game loop, `players.csv` written
only when `players_seen` is non-empty (source line 219). -/
def main (standings : Option JVal) (days : List (Option JVal)) (f : GameFetch) :
    Except String MainRes := do
  let (w1, stRows, teamRows) ← standingsSection standings
  let (pks, rows) ← sweepFrom days ([], [])
  let w2 : List ArtifactPath :=
    if rows.isEmpty then [] else [ArtifactPath.scheduleCsv]
  let (w3, players) := gameLoop f pks []
  let w4 : List ArtifactPath :=
    if players.isEmpty then [] else [ArtifactPath.playersCsv]
  pure ⟨w1 ++ w2 ++ w3 ++ w4, stRows, teamRows, pks, rows, players⟩

/-- A fetch oracle on which every per-game endpoint fails. -/
def noFetch : GameFetch := ⟨fun _ => none, fun _ => none, fun _ => none, fun _ => none⟩

/-- Whether an artifact is one of the four per-game entity payloads. -/
def ArtifactPath.isGame : ArtifactPath → Bool
  | .gameLanding _ => true
  | .gamePbp _ => true
  | .gameBoxscore _ => true
  | .gameShifts _ => true
  | _ => false

/-! ## Concrete inputs used by counterexamples and witnesses -/

/-- A boxscore payload whose home side lists one player (id 8478402) with
only a name. -/
def box1 : JVal := .obj [("teams", .obj [
  ("home", .obj [("id", .num 10),
    ("players", .arr [.obj [("playerId", .num 8478402),
      ("name", .obj [("default", .str "Alice")])]])]),
  ("away", .obj [])])]

/-- A boxscore payload whose home side lists the same player (id 8478402)
with only a sweater number. -/
def box2 : JVal := .obj [("teams", .obj [
  ("home", .obj [("id", .num 10),
    ("players", .arr [.obj [("playerId", .num 8478402),
      ("sweaterNumber", .num 97)]])]),
  ("away", .obj [])])]

/-- The accumulator after harvesting `box1` then `box2`. -/
def playersAfterBoth : PlayersSeen := boxExtract box2 (boxExtract box1 [])

/-- The attribute dict extracted from a player entry carrying no optional
fields at all. -/
def fieldsOfEmpty : PyDict :=
  [("personId", JVal.num 1), ("fullName", JVal.null), ("teamId", JVal.null),
   ("sweaterNumber", JVal.null), ("position", JVal.null), ("shootsCatches", JVal.null),
   ("height", JVal.null), ("weight", JVal.null)]

/-- A one-game schedule day: game id 77 at the given venue. -/
def dayWithVenue (v : String) : JVal :=
  .obj [("gameWeek", .arr [.obj [("games", .arr [
    .obj [("id", .num 77), ("venue", .obj [("default", .str v)])]])]])]

/-- The schedule row produced for game 77 at the given venue. -/
def rowVenue (v : String) : ScheduleRow :=
  ⟨77, .null, .null, .null, .null, .null, .str v, .null⟩

/-- A schedule payload listing zero games for the day. -/
def emptyDayPayload : JVal :=
  .obj [("gameWeek", .arr [.obj [("date", .str "2025-10-04"), ("games", .arr [])]])]

/-- A fetch oracle where every landing fetch succeeds with the empty JSON
object (a falsy payload) and everything else fails. -/
def landingOnlyEmpty : GameFetch :=
  ⟨fun _ => some (.obj []), fun _ => none, fun _ => none, fun _ => none⟩

/-! ## Helper lemmas -/

theorem exc_bind_ok {α β : Type} (a : α) (f : α → Except String β) :
    (Except.ok a >>= f) = f a := rfl

theorem exc_bind_error {α β : Type} (e : String) (f : α → Except String β) :
    ((Except.error e : Except String α) >>= f) = Except.error e := rfl

theorem exc_bind_eq_ok {α β : Type} {x : Except String α} {f : α → Except String β}
    {b : β} (h : (x >>= f) = .ok b) : ∃ a, x = .ok a ∧ f a = .ok b := by
  cases x with
  | error e => exact absurd h (by simp [exc_bind_error])
  | ok a => exact ⟨a, rfl, h⟩

theorem fsGet_fsSet (fs : Fs) (p c : String) : fsGet (fsSet fs p c) p = some c := by
  induction fs with
  | nil => simp [fsSet, fsGet]
  | cons hd tl ih =>
    obtain ⟨q, d⟩ := hd
    by_cases h : q = p
    · simp [fsSet, fsGet, h]
    · simp [fsSet, fsGet, h, ih]

theorem str_empty_append (s : String) : "" ++ s = s := by
  cases s with
  | mk data => rfl

theorem jgetAux_attempts_le (respOf : Nat → HttpResp) :
    ∀ (fuel i : Nat), (jgetAux respOf i fuel).2 ≤ fuel := by
  intro fuel
  induction fuel with
  | zero => intro i; simp [jgetAux]
  | succ n ih =>
    intro i
    simp only [jgetAux]
    cases attemptResult (respOf i) with
    | some p => simp
    | none =>
      by_cases h : n = 0
      · simp [h]
      · simpa [h] using ih (i + 1)

theorem jgetAux_exhaust (respOf : Nat → HttpResp) :
    ∀ (fuel i : Nat),
      (∀ j, i ≤ j → j < i + fuel → attemptResult (respOf j) = none) →
      jgetAux respOf i fuel = (none, fuel) := by
  intro fuel
  induction fuel with
  | zero => intro i _; rfl
  | succ n ih =>
    intro i h
    have hi : attemptResult (respOf i) = none :=
      h i (Nat.le_refl i) (Nat.lt_add_of_pos_right (Nat.succ_pos n))
    simp only [jgetAux, hi]
    by_cases hn : n = 0
    · simp [hn]
    · have := ih (i + 1) (fun j h1 h2 => h j (Nat.le_of_succ_le h1) (by omega))
      simp [hn, this]

theorem sweepFrom_skip_failed (l2 : List (Option JVal)) :
    ∀ (l1 : List (Option JVal)) (st : SweepSt),
      sweepFrom (l1 ++ none :: l2) st = sweepFrom (l1 ++ l2) st := by
  intro l1
  induction l1 with
  | nil =>
    intro st
    show (do
      let st1 ← processDay none st
      sweepFrom l2 st1) = sweepFrom l2 st
    rfl
  | cons d rest ih =>
    intro st
    simp only [List.cons_append, sweepFrom]
    cases processDay d st with
    | error e => simp [exc_bind_error]
    | ok st1 => simp [exc_bind_ok, ih]

theorem objFind?_not_mem {l : List (String × JVal)} {k : String}
    (h : k ∉ l.map (fun kv => kv.1)) : objFind? l k = none := by
  induction l with
  | nil => rfl
  | cons hd tl ih =>
    obtain ⟨k0, v0⟩ := hd
    simp only [List.map_cons, List.mem_cons] at h
    push_neg at h
    simp [objFind?, (Ne.symm h.1), ih h.2]

theorem objFind?_setKey_self (d : PyDict) (k : String) (v : JVal) :
    objFind? (setKey d k v) k = some v := by
  induction d with
  | nil => simp [setKey, objFind?]
  | cons hd tl ih =>
    obtain ⟨k0, v0⟩ := hd
    by_cases h : k0 = k
    · simp [setKey, h, objFind?]
    · simp [setKey, h, objFind?, ih]

theorem objFind?_setKey_ne (d : PyDict) (k : String) (v : JVal) (k' : String)
    (h : k' ≠ k) : objFind? (setKey d k v) k' = objFind? d k' := by
  induction d with
  | nil => simp [setKey, objFind?, Ne.symm h]
  | cons hd tl ih =>
    obtain ⟨k0, v0⟩ := hd
    by_cases h0 : k0 = k
    · subst h0
      simp [setKey, objFind?, Ne.symm h]
    · by_cases h1 : k0 = k'
      · simp [setKey, h0, objFind?, h1, h]
      · simp [setKey, h0, objFind?, h1, ih]

theorem dropDupAux_keys (l : List ScheduleRow) :
    ∀ seen : List Int,
      ((dropDupAux seen l).map (fun r => r.gamePk)).Nodup ∧
      (∀ k ∈ (dropDupAux seen l).map (fun r => r.gamePk), k ∉ seen) := by
  induction l with
  | nil => intro seen; simp [dropDupAux]
  | cons r rest ih =>
    intro seen
    by_cases h : r.gamePk ∈ seen
    · simpa [dropDupAux, h] using ih seen
    · obtain ⟨ih1, ih2⟩ := ih (r.gamePk :: seen)
      refine ⟨?_, ?_⟩
      · simp only [dropDupAux, h, if_false, List.map_cons, List.nodup_cons]
        exact ⟨fun hmem => (ih2 _ hmem) (List.mem_cons_self _ _), ih1⟩
      · intro k hk
        simp only [dropDupAux, h, if_false, List.map_cons, List.mem_cons] at hk
        rcases hk with rfl | hk
        · exact h
        · intro hks
          exact (ih2 k hk) (List.mem_cons_of_mem _ hks)

theorem dropDupAux_mem_keys (l : List ScheduleRow) :
    ∀ (seen : List Int) (k : Int), k ∉ seen →
      (k ∈ (dropDupAux seen l).map (fun r => r.gamePk) ↔
        k ∈ l.map (fun r => r.gamePk)) := by
  induction l with
  | nil => intro seen k _; simp [dropDupAux]
  | cons r rest ih =>
    intro seen k hk
    by_cases h : r.gamePk ∈ seen
    · have hne : k ≠ r.gamePk := fun he => hk (he ▸ h)
      simp [dropDupAux, h, ih seen k hk, hne]
    · by_cases he : k = r.gamePk
      · subst he
        simp [dropDupAux, h]
      · have hk1 : k ∉ r.gamePk :: seen := by
          simp only [List.mem_cons]
          push_neg
          exact ⟨he, hk⟩
        simp [dropDupAux, h, ih (r.gamePk :: seen) k hk1, he]

theorem dropDupAux_find? (l : List ScheduleRow) :
    ∀ (seen : List Int) (k : Int), k ∉ seen →
      (dropDupAux seen l).find? (fun r => r.gamePk == k) =
        l.find? (fun r => r.gamePk == k) := by
  induction l with
  | nil => intro seen k _; rfl
  | cons r rest ih =>
    intro seen k hk
    by_cases h : r.gamePk ∈ seen
    · have hne : (r.gamePk == k) = false := by
        simp only [beq_eq_false_iff_ne, ne_eq]
        intro he
        exact hk (he ▸ h)
      simp [dropDupAux, h, List.find?, hne, ih seen k hk]
    · by_cases he : r.gamePk = k
      · simp [dropDupAux, h, List.find?, he, hk]
      · have hk1 : k ∉ r.gamePk :: seen := by
          simp only [List.mem_cons]
          push_neg
          exact ⟨fun x => he x.symm, hk⟩
        have hne : (r.gamePk == k) = false := by
          simp only [beq_eq_false_iff_ne, ne_eq]
          exact he
        simp [dropDupAux, h, List.find?, hne, ih (r.gamePk :: seen) k hk1]

theorem buildFields_shift (v : JVal) (rest : List (String × JVal)) (tid : JVal)
    (pid : Int) :
    buildFields (.obj (("id", v) :: rest)) tid pid
      = buildFields (.obj (("playerId", v) :: rest)) tid pid := by
  simp [buildFields, exGet, exGetD, objFind?]

theorem harvest_map_seq (kvs extra : List (String × JVal)) (tid : JVal)
    (st : PlayersSeen) :
    harvest (.obj (("players", .obj kvs) :: extra)) tid st
      = harvest (.obj (("players", .arr (kvs.map (fun kv => kv.2))) :: extra)) tid st := by
  cases kvs with
  | nil =>
    simp [harvest, playersSeq, pyOr, truthy, exGet, objFind?, orElseGet, iterPy, exc_bind_ok]
  | cons hd tl =>
    simp [harvest, playersSeq, pyOr, truthy, exGet, objFind?, orElseGet, iterPy, List.map,
      exc_bind_ok]

theorem harvestOne_alt_id (v : JVal) (rest : List (String × JVal)) (tid : JVal)
    (st : PlayersSeen) (hp : "playerId" ∉ rest.map (fun kv => kv.1))
    (hi : "id" ∉ rest.map (fun kv => kv.1)) :
    harvestOne (.obj (("id", v) :: rest)) tid st
      = harvestOne (.obj (("playerId", v) :: rest)) tid st := by
  have hP := objFind?_not_mem hp
  have hI := objFind?_not_mem hi
  have htn : truthy JVal.null = false := rfl
  by_cases hv : truthy v
  · simp [harvestOne, pidProbe, exGet, objFind?, orElseGet, hP, hI, hv, htn, exc_bind_ok,
      buildFields_shift]
  · simp [harvestOne, pidProbe, exGet, objFind?, orElseGet, hP, hI, hv, htn, exc_bind_ok]

theorem harvestPlayers_skip (tid : JVal) (p : JVal) (w : JVal)
    (hprobe : pidProbe p = .ok w) (hw : truthy w = false) :
    ∀ (ps1 : List JVal) (ps2 : List JVal) (st : PlayersSeen),
      harvestPlayers tid (ps1 ++ p :: ps2) st = harvestPlayers tid (ps1 ++ ps2) st := by
  have hone : ∀ st0 : PlayersSeen, harvestOne p tid st0 = .ok st0 := by
    intro st0
    simp [harvestOne, hprobe, exc_bind_ok, hw, pure, Except.pure]
  intro ps1
  induction ps1 with
  | nil =>
    intro ps2 st
    simp only [List.nil_append, harvestPlayers, hone]
  | cons q rest ih =>
    intro ps2 st
    simp only [List.cons_append, harvestPlayers]
    cases hq : harvestOne q tid st with
    | error e => simp
    | ok st1 => simp [ih ps2 st1]

theorem mem_writeIfTruthy (x : Option JVal) (a b : ArtifactPath) :
    a ∈ writeIfTruthy x b ↔ (a = b ∧ ∃ v, x = some v ∧ truthy v = true) := by
  cases x with
  | none => simp [writeIfTruthy]
  | some v => by_cases h : truthy v <;> simp [writeIfTruthy, h]

theorem gameStep_writes (f : GameFetch) (gpk : Int) (ps : PlayersSeen) :
    (gameStep f gpk ps).1
      = writeIfTruthy (f.landing gpk) (.gameLanding gpk) ++
        writeIfTruthy (f.pbp gpk) (.gamePbp gpk) ++
        writeIfTruthy (f.box gpk) (.gameBoxscore gpk) ++
        writeIfTruthy (f.shifts gpk) (.gameShifts gpk) := by
  cases hb : f.box gpk with
  | none => simp [gameStep, hb, writeIfTruthy]
  | some b => by_cases htb : truthy b <;> simp [gameStep, hb, writeIfTruthy, htb]

theorem gameStep_writes_isGame (f : GameFetch) (gpk : Int) (ps : PlayersSeen) :
    ∀ a ∈ (gameStep f gpk ps).1, a.isGame = true := by
  intro a ha
  rw [gameStep_writes] at ha
  simp only [List.mem_append, mem_writeIfTruthy] at ha
  rcases ha with ((⟨rfl, -⟩ | ⟨rfl, -⟩) | ⟨rfl, -⟩) | ⟨rfl, -⟩ <;> rfl

theorem gameLoop_writes_isGame (f : GameFetch) :
    ∀ (pks : List Int) (ps : PlayersSeen) (a : ArtifactPath),
      a ∈ (gameLoop f pks ps).1 → a.isGame = true := by
  intro pks
  induction pks with
  | nil => intro ps a ha; simp [gameLoop] at ha
  | cons g rest ih =>
    intro ps a ha
    simp only [gameLoop, List.mem_append] at ha
    rcases ha with ha | ha
    · exact gameStep_writes_isGame f g ps a ha
    · exact ih (gameStep f g ps).2 a ha

theorem standingsSection_spec (s : Option JVal) (w : List ArtifactPath) (rows : JVal)
    (trs : List TeamRow) (h : standingsSection s = .ok (w, rows, trs)) :
    (ArtifactPath.standingsCsv ∈ w ↔ truthy rows = true) ∧
    (ArtifactPath.teamsCsv ∈ w ↔ trs ≠ []) ∧
    ArtifactPath.scheduleCsv ∉ w ∧ ArtifactPath.playersCsv ∉ w := by
  cases s with
  | none =>
    simp only [standingsSection, Except.ok.injEq, Prod.mk.injEq] at h
    obtain ⟨rfl, rfl, rfl⟩ := h
    simp [truthy]
  | some v =>
    by_cases hv : truthy v
    · simp only [standingsSection, hv, if_true] at h
      obtain ⟨rows0, h1, h⟩ := exc_bind_eq_ok h
      obtain ⟨rowList, h2, h⟩ := exc_bind_eq_ok h
      obtain ⟨trs0, h3, h⟩ := exc_bind_eq_ok h
      simp only [pure, Except.pure, Except.ok.injEq, Prod.mk.injEq] at h
      obtain ⟨hw, hr, ht⟩ := h
      subst hw
      subst hr
      subst ht
      cases trs0 with
      | nil => by_cases htr : truthy rows0 <;> simp [htr]
      | cons t ts => by_cases htr : truthy rows0 <;> simp [htr]
    · simp only [standingsSection, hv, if_false, Except.ok.injEq, Prod.mk.injEq] at h
      obtain ⟨rfl, rfl, rfl⟩ := h
      simp [truthy]

/-! ## Claims -/

/-- Claim C1, counterexample.  The claim states that every artifact write
first serializes to a temporary location and atomically renames it into
the final path, so that at every moment the final path is either absent
or the complete artifact.  For the write of `"DATA"` to
`"standings_now.json"`, the prefix of `dump_json`'s operations ending
just after the truncating `open` leaves the final path present with
empty content — neither absent nor the complete artifact. -/
theorem C1_atomic_write_counterexample :
    ¬ (∀ pre : List FsOp,
        (∃ t, pre ++ t = dump_json "standings_now.json" "DATA") →
        fsGet (applyOps [] pre) "standings_now.json" = none ∨
        fsGet (applyOps [] pre) "standings_now.json" = some "DATA") := by
  intro h
  have hpre := h [FsOp.openTrunc "standings_now.json"]
    ⟨[FsOp.writeChunk "standings_now.json" "DATA"], rfl⟩
  rcases hpre with h1 | h1 <;>
    simp [applyOps, applyOp, fsSet, fsGet] at h1

/-- Claim C1, amended.  `dump_json` writes the final path directly and in
place: it truncates the final path, then writes the serialized content
into it; every operation it performs targets the final path (no
temporary file and no rename exist).  An uninterrupted write leaves the
complete serialized artifact at the final path, but a crash between the
truncating open and the completion of the write leaves a partially
written (empty) final artifact observable. -/
theorem C1_inplace_write (path ser : String) (fs : Fs) (hser : ser ≠ "") :
    fsGet (applyOps fs (dump_json path ser)) path = some ser ∧
    (∀ op ∈ dump_json path ser, op.path = path) ∧
    fsGet (applyOps fs [FsOp.openTrunc path]) path = some "" ∧
    fsGet (applyOps fs [FsOp.openTrunc path]) path ≠ some ser := by
  have h1 : fsGet (applyOps fs (dump_json path ser)) path = some ser := by
    show fsGet (applyOp (applyOp fs (FsOp.openTrunc path)) (FsOp.writeChunk path ser)) path
      = some ser
    show fsGet (fsSet (fsSet fs path "")
      path (((fsGet (fsSet fs path "") path).getD "") ++ ser)) path = some ser
    rw [fsGet_fsSet, fsGet_fsSet]
    simp [str_empty_append]
  have h2 : fsGet (applyOps fs [FsOp.openTrunc path]) path = some "" := by
    show fsGet (fsSet fs path "") path = some ""
    exact fsGet_fsSet fs path ""
  refine ⟨h1, ?_, h2, ?_⟩
  · intro op hop
    simp only [dump_json, List.mem_cons, List.not_mem_nil, or_false] at hop
    rcases hop with rfl | rfl
    · rfl
    · rfl
  · rw [h2]
    intro h
    exact hser (Option.some.inj h).symm

/-- Claim C1 witness at a concrete write. -/
theorem C1_inplace_write_witness :
    ("DATA" : String) ≠ "" ∧
    fsGet (applyOps [] (dump_json "standings_now.json" "DATA")) "standings_now.json"
      = some "DATA" :=
  ⟨by decide, (C1_inplace_write "standings_now.json" "DATA" [] (by decide)).1⟩

/-- Claim C2: the transport `jget` makes at most `retries` attempts
(default 3); an attempt fails on network errors, status 500 or above,
a 4xx raised by `raise_for_status`, or a body-decode failure; when all
attempts fail it returns `None` (a value, not an exception); and when
the first two attempts return HTTP 503 and the third a decodable 200
payload, the payload is returned after exactly 3 attempts. -/
theorem C2_transport_retry (respOf : Nat → HttpResp) (retries : Nat)
    (q0 q1 p : JVal) :
    (jget respOf retries).2 ≤ retries ∧
    ((∀ j, j < retries → attemptResult (respOf j) = none) →
      jget respOf retries = (none, retries)) ∧
    (respOf 0 = HttpResp.resp 503 true q0 → respOf 1 = HttpResp.resp 503 true q1 →
      respOf 2 = HttpResp.resp 200 true p →
      jget respOf 3 = (some p, 3)) := by
  refine ⟨jgetAux_attempts_le respOf retries 0, ?_, ?_⟩
  · intro h
    exact jgetAux_exhaust respOf retries 0 (fun j _ hj => h j (by omega))
  · intro h0 h1 h2
    simp [jget, jgetAux, h0, h1, h2, attemptResult]

/-- Claim C2 witness: a concrete oracle failing with 503 twice then
succeeding with 200 and payload `42`. -/
theorem C2_transport_retry_witness :
    jget (fun i => if i < 2 then HttpResp.resp 503 true JVal.null
      else HttpResp.resp 200 true (JVal.num 42)) 3 = (some (JVal.num 42), 3) :=
  (C2_transport_retry (fun i => if i < 2 then HttpResp.resp 503 true JVal.null
      else HttpResp.resp 200 true (JVal.num 42)) 3 JVal.null JVal.null
      (JVal.num 42)).2.2 rfl rfl rfl

/-- Claim C3, counterexample.  The first observation supplies the non-empty
field `fullName` (value `"Alice"`), the second the disjoint non-empty
field `sweaterNumber` (value `97`).  The claim says the merged record
contains both.  In the code, `rec.update(...)` writes every one of the
eight extracted keys on every observation, so the second observation
overwrites `fullName` with `None`: the final record does not contain
`"Alice"`. -/
theorem C3_merge_counterexample :
    ¬ ((psLookup playersAfterBoth 8478402).bind (fun r => dictLookup r "fullName")
        = some (JVal.str "Alice") ∧
      (psLookup playersAfterBoth 8478402).bind (fun r => dictLookup r "sweaterNumber")
        = some (JVal.num 97)) := by
  intro h
  have h1 := h.1
  have hval : (psLookup playersAfterBoth 8478402).bind (fun r => dictLookup r "fullName")
      = some JVal.null := rfl
  rw [hval] at h1
  simp at h1

/-- Claim C3, amended.  The merge is a full-field overwrite, not a
merge-by-field: every observation's `rec.update(...)` dict carries all
eight extracted keys (with `None` standing for fields the payload
lacks), so after a merge every field listed in `recFieldKeys` reads its
value from the newest observation alone; any previously recorded value —
including a non-empty one the newer observation does not supply — is
overwritten. -/
theorem C3_merge_overwrites (p teamId : JVal) (pid : Int) (fl rec : PyDict)
    (h : buildFields p teamId pid = .ok fl) :
    ∀ k ∈ recFieldKeys, dictLookup (dictUpdate rec fl) k = dictLookup fl k := by
  obtain ⟨n0, h0, h⟩ := exc_bind_eq_ok h
  obtain ⟨n1, h1, h⟩ := exc_bind_eq_ok h
  obtain ⟨fullName, h2, h⟩ := exc_bind_eq_ok h
  obtain ⟨sw0, h3, h⟩ := exc_bind_eq_ok h
  obtain ⟨sw, h4, h⟩ := exc_bind_eq_ok h
  obtain ⟨pos0, h5, h⟩ := exc_bind_eq_ok h
  obtain ⟨pos1, h6, h⟩ := exc_bind_eq_ok h
  obtain ⟨pos, h7, h⟩ := exc_bind_eq_ok h
  obtain ⟨sc0, h8, h⟩ := exc_bind_eq_ok h
  obtain ⟨sc1, h9, h⟩ := exc_bind_eq_ok h
  obtain ⟨sc, h10, h⟩ := exc_bind_eq_ok h
  obtain ⟨ht, h11, h⟩ := exc_bind_eq_ok h
  obtain ⟨wt, h12, h⟩ := exc_bind_eq_ok h
  have hfl : fl = [("personId", JVal.num pid), ("fullName", fullName), ("teamId", teamId),
      ("sweaterNumber", sw), ("position", pos), ("shootsCatches", sc),
      ("height", ht), ("weight", wt)] := (Except.ok.inj h).symm
  subst hfl
  intro k hk
  simp only [recFieldKeys, List.mem_cons, List.not_mem_nil, or_false] at hk
  simp only [dictLookup]
  rcases hk with rfl | rfl | rfl | rfl | rfl | rfl | rfl | rfl <;>
    simp [dictUpdate, List.foldl, objFind?_setKey_self, objFind?_setKey_ne, objFind?]

/-- Claim C3 witness: merging an empty observation over a record holding a
previous `fullName` replaces it with the new (null) value. -/
theorem C3_merge_overwrites_witness :
    buildFields (JVal.obj []) JVal.null 1 = Except.ok fieldsOfEmpty ∧
    dictLookup (dictUpdate [("fullName", JVal.str "Old")] fieldsOfEmpty) "fullName"
      = dictLookup fieldsOfEmpty "fullName" :=
  ⟨rfl, C3_merge_overwrites (JVal.obj []) JVal.null 1 fieldsOfEmpty
    [("fullName", JVal.str "Old")] rfl "fullName" (by simp [recFieldKeys])⟩

/-- Claim C4, counterexample.  Game 77 appears on two sweep days with
different venue fields.  The identifier set holds one entry and both
rows are appended; but the flush (`drop_duplicates(subset=["gamePk"])`
with the default `keep="first"`) keeps the FIRST appended occurrence,
not the last as the claim states. -/
theorem C4_keep_last_counterexample :
    sweepFrom [some (dayWithVenue "A"), some (dayWithVenue "B")] ([], [])
      = .ok ([77], [rowVenue "A", rowVenue "B"]) ∧
    scheduleCsvRows [rowVenue "A", rowVenue "B"] = [rowVenue "A"] ∧
    scheduleCsvRows [rowVenue "A", rowVenue "B"] ≠ [rowVenue "B"] := by
  refine ⟨rfl, rfl, ?_⟩
  intro h
  simp [scheduleCsvRows, dropDupAux, rowVenue] at h

/-- Claim C4, amended.  A game entry whose (numeric, non-zero) identifier
is already in `game_pks` leaves the set unchanged while its schedule row
is still appended; a fresh identifier is appended once; and the final
flush keeps exactly one row per identifier — the first occurrence
appended during the sweep, not the last (`drop_duplicates` keeps
`"first"` by default; every identifier present before the flush is still
present after it, and the kept row is the first row carrying it). -/
theorem C4_dedup (g : JVal) (pks : List Int) (rows rows2 : List ScheduleRow)
    (out : SweepSt) (n k : Int) :
    (gpkProbe g = .ok (JVal.num n) → n ≠ 0 → processGame g (pks, rows) = .ok out →
      ((n ∈ pks → out.1 = pks) ∧ (n ∉ pks → out.1 = pks ++ [n]) ∧
        out.2.length = rows.length + 1)) ∧
    ((scheduleCsvRows rows2).map (fun r => r.gamePk)).Nodup ∧
    (k ∈ (scheduleCsvRows rows2).map (fun r => r.gamePk) ↔
      k ∈ rows2.map (fun r => r.gamePk)) ∧
    (scheduleCsvRows rows2).find? (fun r => r.gamePk == k) =
      rows2.find? (fun r => r.gamePk == k) := by
  refine ⟨?_, (dropDupAux_keys rows2 []).1,
    dropDupAux_mem_keys rows2 [] k (List.not_mem_nil k),
    dropDupAux_find? rows2 [] k (List.not_mem_nil k)⟩
  intro hg hn hok
  simp only [processGame, hg, exc_bind_ok] at hok
  have htr : truthy (JVal.num n) = true := by simp [truthy, hn]
  rw [htr] at hok
  simp only [if_true, pyInt, exc_bind_ok] at hok
  cases hr : mkRow g n with
  | error e => rw [hr] at hok; simp [exc_bind_error] at hok
  | ok row =>
    rw [hr] at hok
    simp only [exc_bind_ok] at hok
    have hout := (Except.ok.inj hok).symm
    by_cases hmem : n ∈ pks
    · have hb : pyMemInt (JVal.num n) pks = true := by
        simp only [pyMemInt, List.any_eq_true]
        exact ⟨n, hmem, by simp [pyEqInt]⟩
      rw [hout]
      refine ⟨fun _ => ?_, fun hc => absurd hmem hc, ?_⟩
      · simp [hb]
      · simp
    · have hb : pyMemInt (JVal.num n) pks = false := by
        simp only [pyMemInt, List.any_eq_false]
        intro x hx
        simp only [pyEqInt, decide_eq_true_eq]
        intro he
        exact hmem (he ▸ hx)
      rw [hout]
      refine ⟨fun hc => absurd hc hmem, fun _ => ?_, ?_⟩
      · simp [hb]
      · simp

/-- Claim C4 witness: a duplicate of game 77 leaves the set unchanged but
appends a second row. -/
theorem C4_dedup_witness :
    processGame (.obj [("id", JVal.num 77)]) ([77], []) = .ok ([77], [⟨77, .null, .null, .null, .null, .null, .null, .null⟩]) ∧
    (([77] : List Int) = [77] ∧ [(⟨77, .null, .null, .null, .null, .null, .null, .null⟩ : ScheduleRow)].length = 1) := by
  refine ⟨rfl, ?_, ?_⟩
  · exact ((C4_dedup (.obj [("id", JVal.num 77)]) [77] [] [] ([77], [⟨77, .null, .null, .null, .null, .null, .null, .null⟩]) 77 0).1 rfl (by decide) rfl).1 (by decide)
  · exact ((C4_dedup (.obj [("id", JVal.num 77)]) [77] [] [] ([77], [⟨77, .null, .null, .null, .null, .null, .null, .null⟩]) 77 0).1 rfl (by decide) rfl).2.2

/-- Claim C7: a single day whose schedule fetch fails (the transport
returns `None`) contributes nothing and aborts nothing: the whole run —
remaining days' discovery included, harvesting and persisting of all
discovered games, and all summary flushes — produces exactly the result
of the run without that day.  (The warning log for the failed fetch is
printed inside `jget` and is not part of the modelled state.) -/
theorem C7_day_failure_isolation (standings : Option JVal)
    (l1 l2 : List (Option JVal)) (f : GameFetch) :
    main standings (l1 ++ none :: l2) f = main standings (l1 ++ l2) f := by
  simp only [main, sweepFrom_skip_failed]

/-- Claim C5, counterexample.  Sweeping the single empty day completes
without error and discovers no identifiers, but the run writes NO
artifact at all — in particular no artifact named `schedule.json`: the
pipeline has no write site for a per-day raw schedule payload (contrary
to the claim that a `schedule.json` with zero games is produced). -/
theorem C5_schedule_json_counterexample :
    main none [some emptyDayPayload] noFetch = .ok ⟨[], .null, [], [], [], []⟩ ∧
    (main none [some emptyDayPayload] noFetch).toOption.map
      (fun r => r.writes.any (fun a => a.fileName == "schedule.json")) = some false := by
  exact ⟨rfl, rfl⟩

/-- Claim C5, amended.  A day whose schedule payload lists zero games
contributes no identifiers and no schedule rows and completes without
error; but no `schedule.json` artifact is produced — the run on such a
day writes nothing (the only schedule-derived artifact the pipeline can
write is the aggregated `schedule.csv`, and only when at least one game
row was collected). -/
theorem C5_empty_day (d : String) (st : SweepSt) :
    processDay (some (JVal.obj [("gameWeek",
      JVal.arr [JVal.obj [("date", JVal.str d), ("games", JVal.arr [])]])])) st
      = .ok st ∧
    (main none [some emptyDayPayload] noFetch).toOption.map
      (fun r => (r.writes, r.pks)) = some ([], []) := by
  exact ⟨rfl, rfl⟩

/-- Claim C6: shape tolerance of the boxscore harvester.  (1) A player
listing given as a mapping is harvested exactly as the sequence of the
mapping's values.  (2) A player entry whose identifier sits under the
alternate key `id` instead of `playerId` is harvested identically
(when neither key occurs among its remaining fields).  (3) A (dict)
player entry whose identifier probe yields a falsy value is skipped
without disturbing the extraction of the surrounding entries. -/
theorem C6_shape_tolerance (kvs extra rest : List (String × JVal)) (tid v p w : JVal)
    (st : PlayersSeen) (ps1 ps2 : List JVal) :
    (harvest (.obj (("players", .obj kvs) :: extra)) tid st
      = harvest (.obj (("players", .arr (kvs.map (fun kv => kv.2))) :: extra)) tid st) ∧
    ("playerId" ∉ rest.map (fun kv => kv.1) → "id" ∉ rest.map (fun kv => kv.1) →
      harvestOne (.obj (("id", v) :: rest)) tid st
        = harvestOne (.obj (("playerId", v) :: rest)) tid st) ∧
    (pidProbe p = .ok w → truthy w = false →
      harvestPlayers tid (ps1 ++ p :: ps2) st = harvestPlayers tid (ps1 ++ ps2) st) :=
  ⟨harvest_map_seq kvs extra tid st,
   fun hp hi => harvestOne_alt_id v rest tid st hp hi,
   fun hprobe hw => harvestPlayers_skip tid p w hprobe hw ps1 ps2 st⟩

/-- Claim C6 witness: a concrete mapping-shaped listing, a concrete
alternate-key entry, and a concrete identifier-free entry. -/
theorem C6_shape_tolerance_witness :
    (harvest (.obj [("players", .obj [("8478402", .obj [("id", .num 8478402)])])]) .null []
      = harvest (.obj [("players", .arr [.obj [("id", .num 8478402)]])]) .null []) ∧
    (harvestOne (.obj [("id", .num 8478402), ("name", .obj [("default", .str "Bob")])]) .null []
      = harvestOne (.obj [("playerId", .num 8478402), ("name", .obj [("default", .str "Bob")])]) .null []) ∧
    (harvestPlayers .null [.obj []] [] = harvestPlayers .null [] []) :=
  ⟨(C6_shape_tolerance [("8478402", .obj [("id", .num 8478402)])] [] [] .null .null .null .null [] [] []).1,
   (C6_shape_tolerance [] [] [("name", .obj [("default", .str "Bob")])] .null (.num 8478402)
      .null .null [] [] []).2.1 (by simp) (by simp),
   (C6_shape_tolerance [] [] [] .null .null (.obj []) .null [] [] []).2.2 rfl rfl⟩

/-- Claim C8, counterexample.  A landing fetch that succeeds and decodes to
the empty JSON object is a successful fetch, but `if landing:` treats
the falsy payload as absent: nothing is persisted for it, contrary to
the claim that every successfully fetched entity is persisted. -/
theorem C8_persist_counterexample :
    landingOnlyEmpty.landing 1 = some (JVal.obj []) ∧
    ArtifactPath.gameLanding 1 ∉ (gameStep landingOnlyEmpty 1 []).1 := by
  refine ⟨rfl, ?_⟩
  have h : (gameStep landingOnlyEmpty 1 []).1 = [] := rfl
  rw [h]
  simp

/-- Claim C8, amended.  The four per-game entities are fetched
independently, and an entity's artifact is written exactly when its own
fetch returned a truthy payload — irrespective of the outcomes of the
other three; a successful fetch whose payload is falsy (empty object,
empty list, `null`) is treated as unavailable and not persisted. -/
theorem C8_entity_independence (f : GameFetch) (gpk : Int) (ps : PlayersSeen) :
    (ArtifactPath.gameLanding gpk ∈ (gameStep f gpk ps).1 ↔
      ∃ v, f.landing gpk = some v ∧ truthy v = true) ∧
    (ArtifactPath.gamePbp gpk ∈ (gameStep f gpk ps).1 ↔
      ∃ v, f.pbp gpk = some v ∧ truthy v = true) ∧
    (ArtifactPath.gameBoxscore gpk ∈ (gameStep f gpk ps).1 ↔
      ∃ v, f.box gpk = some v ∧ truthy v = true) ∧
    (ArtifactPath.gameShifts gpk ∈ (gameStep f gpk ps).1 ↔
      ∃ v, f.shifts gpk = some v ∧ truthy v = true) := by
  simp [gameStep_writes, List.mem_append, mem_writeIfTruthy]

/-- Claim C9, counterexample.  In the entry whose only key is `id` with
value `0`, the identifier key is present and non-null, so the claim says
discovery accepts `0`; the code's `or`-chain treats the falsy `0` as
absent and `if not gpk` then skips the entry: nothing is discovered. -/
theorem C9_probe_counterexample :
    processGame (JVal.obj [("id", JVal.num 0)]) ([], []) = .ok ([], []) ∧
    (0 : Int) ∉ ((processGame (JVal.obj [("id", JVal.num 0)]) ([], [])).toOption.getD
      ([], [])).1 := by
  refine ⟨rfl, ?_⟩
  have h : (processGame (JVal.obj [("id", JVal.num 0)]) ([], [])).toOption.getD ([], [])
      = (([], []) : SweepSt) := rfl
  rw [h]
  simp

/-- Claim C9, amended.  Discovery probes `id`, then `gameId`, then `gamePk`,
and accepts the first TRUTHY value (present, non-null and non-falsy: not
`0`, `""`, `false`, or empty); when all candidates are absent or falsy
the entry is skipped without error; an accepted numeric identifier is
coerced by `int()` and lands in the discovered identifier list. -/
theorem C9_probe_order (kvs : List (String × JVal)) (st : SweepSt) :
    (truthy ((objFind? kvs "id").getD .null) = true →
      gpkProbe (.obj kvs) = .ok ((objFind? kvs "id").getD .null)) ∧
    (truthy ((objFind? kvs "id").getD .null) = false →
      truthy ((objFind? kvs "gameId").getD .null) = true →
      gpkProbe (.obj kvs) = .ok ((objFind? kvs "gameId").getD .null)) ∧
    (truthy ((objFind? kvs "id").getD .null) = false →
      truthy ((objFind? kvs "gameId").getD .null) = false →
      gpkProbe (.obj kvs) = .ok ((objFind? kvs "gamePk").getD .null)) ∧
    (truthy ((objFind? kvs "id").getD .null) = false →
      truthy ((objFind? kvs "gameId").getD .null) = false →
      truthy ((objFind? kvs "gamePk").getD .null) = false →
      processGame (.obj kvs) st = .ok st) ∧
    (∀ (n : Int) (out : SweepSt), gpkProbe (.obj kvs) = .ok (JVal.num n) → n ≠ 0 →
      processGame (.obj kvs) st = .ok out → n ∈ out.1) := by
  refine ⟨?_, ?_, ?_, ?_, ?_⟩
  · intro h1
    simp [gpkProbe, exGet, exc_bind_ok, orElseGet, h1]
  · intro h1 h2
    simp [gpkProbe, exGet, exc_bind_ok, orElseGet, h1, h2]
  · intro h1 h2
    simp [gpkProbe, exGet, exc_bind_ok, orElseGet, h1, h2]
  · intro h1 h2 h3
    simp [processGame, gpkProbe, exGet, exc_bind_ok, orElseGet, h1, h2, h3, pure,
      Except.pure]
  · intro n out hgp hn hok
    simp only [processGame, hgp, exc_bind_ok] at hok
    have htr : truthy (JVal.num n) = true := by simp [truthy, hn]
    rw [htr] at hok
    simp only [if_true, pyInt, exc_bind_ok] at hok
    cases hr : mkRow (.obj kvs) n with
    | error e => rw [hr] at hok; simp [exc_bind_error] at hok
    | ok row =>
      rw [hr] at hok
      simp only [exc_bind_ok] at hok
      have hout := (Except.ok.inj hok).symm
      rw [hout]
      by_cases hb : pyMemInt (JVal.num n) st.1
      · simp only [hb, if_true]
        simp only [pyMemInt, List.any_eq_true] at hb
        obtain ⟨x, hx, hEq⟩ := hb
        simp only [pyEqInt, decide_eq_true_eq] at hEq
        exact hEq ▸ hx
      · simp only [Bool.not_eq_true] at hb
        simp [hb]

/-- Claim C9 witness: `id` present with the falsy value `0` is passed over
in favour of a truthy `gameId`, which is discovered. -/
theorem C9_probe_order_witness :
    gpkProbe (.obj [("id", JVal.num 0), ("gameId", JVal.num 7)]) = .ok (JVal.num 7) ∧
    (7 : Int) ∈ ((([7], [(⟨7, .null, .null, .null, .null, .null, .null, .null⟩ : ScheduleRow)]) : SweepSt)).1 :=
  ⟨(C9_probe_order [("id", JVal.num 0), ("gameId", JVal.num 7)] ([], [])).2.1 rfl rfl,
   (C9_probe_order [("id", JVal.num 0), ("gameId", JVal.num 7)] ([], [])).2.2.2.2 7
     (([7], [⟨7, .null, .null, .null, .null, .null, .null, .null⟩]) : SweepSt)
     rfl (by decide) rfl⟩

/-- Claim C10: each derived tabular summary is written exactly when its
in-memory accumulator is non-empty at its flush point: `standings.csv`
iff the standings payload's `standings` list is truthy, `teams.csv` iff
`team_rows` is non-empty, `schedule.csv` iff `game_rows` is non-empty,
and `players.csv` iff `players_seen` is non-empty; a run observing no
rows of a kind writes no file for it at all. -/
theorem C10_summary_writes (standings : Option JVal) (days : List (Option JVal))
    (f : GameFetch) (r : MainRes) (h : main standings days f = .ok r) :
    (ArtifactPath.standingsCsv ∈ r.writes ↔ truthy r.stRows = true) ∧
    (ArtifactPath.teamsCsv ∈ r.writes ↔ r.teamRows ≠ []) ∧
    (ArtifactPath.scheduleCsv ∈ r.writes ↔ r.rows ≠ []) ∧
    (ArtifactPath.playersCsv ∈ r.writes ↔ r.players ≠ []) := by
  simp only [main] at h
  obtain ⟨⟨w1, rows0, trs0⟩, h1, h⟩ := exc_bind_eq_ok h
  obtain ⟨⟨pks, rows⟩, h2, h⟩ := exc_bind_eq_ok h
  rcases hgl : gameLoop f pks [] with ⟨w3, players⟩
  rw [hgl] at h
  simp only [pure, Except.pure, Except.ok.injEq] at h
  subst h
  have hspec := standingsSection_spec standings w1 rows0 trs0 h1
  have hgame := fun a ha => gameLoop_writes_isGame f pks [] a (hgl ▸ ha : a ∈ (gameLoop f pks []).1)
  refine ⟨?_, ?_, ?_, ?_⟩
  · simp only [List.mem_append]
    constructor
    · rintro (((hw | hw) | hw) | hw)
      · exact hspec.1.mp hw
      · by_cases he : rows.isEmpty <;> simp [he] at hw
      · exact absurd (hgame _ hw) (by simp [ArtifactPath.isGame])
      · by_cases he : players.isEmpty <;> simp [he] at hw
    · intro ht
      exact Or.inl (Or.inl (Or.inl (hspec.1.mpr ht)))
  · simp only [List.mem_append]
    constructor
    · rintro (((hw | hw) | hw) | hw)
      · exact hspec.2.1.mp hw
      · by_cases he : rows.isEmpty <;> simp [he] at hw
      · exact absurd (hgame _ hw) (by simp [ArtifactPath.isGame])
      · by_cases he : players.isEmpty <;> simp [he] at hw
    · intro ht
      exact Or.inl (Or.inl (Or.inl (hspec.2.1.mpr ht)))
  · simp only [List.mem_append]
    constructor
    · rintro (((hw | hw) | hw) | hw)
      · exact absurd hw hspec.2.2.1
      · by_cases he : rows.isEmpty
        · simp [he] at hw
        · cases rows with
          | nil => exact absurd rfl he
          | cons a l => simp
      · exact absurd (hgame _ hw) (by simp [ArtifactPath.isGame])
      · by_cases he : players.isEmpty <;> simp [he] at hw
    · intro ht
      have he : rows.isEmpty = false := by
        cases rows with
        | nil => exact absurd rfl ht
        | cons a l => rfl
      exact Or.inl (Or.inl (Or.inr (by simp [he])))
  · simp only [List.mem_append]
    constructor
    · rintro (((hw | hw) | hw) | hw)
      · exact absurd hw hspec.2.2.2
      · by_cases he : rows.isEmpty <;> simp [he] at hw
      · exact absurd (hgame _ hw) (by simp [ArtifactPath.isGame])
      · by_cases he : players.isEmpty
        · simp [he] at hw
        · cases players with
          | nil => exact absurd rfl he
          | cons a l => simp
    · intro ht
      have he : players.isEmpty = false := by
        cases players with
        | nil => exact absurd rfl ht
        | cons a l => rfl
      exact Or.inr (by simp [he])

/-- The result of a run with no standings, no days and no fetches. -/
def emptyRun : MainRes := ⟨[], .null, [], [], [], []⟩

/-- Claim C10 witness: the empty run writes no summary, matching its empty
accumulators. -/
theorem C10_summary_writes_witness :
    (ArtifactPath.standingsCsv ∈ emptyRun.writes ↔ truthy emptyRun.stRows = true) ∧
    (ArtifactPath.teamsCsv ∈ emptyRun.writes ↔ emptyRun.teamRows ≠ []) ∧
    (ArtifactPath.scheduleCsv ∈ emptyRun.writes ↔ emptyRun.rows ≠ []) ∧
    (ArtifactPath.playersCsv ∈ emptyRun.writes ↔ emptyRun.players ≠ []) :=
  C10_summary_writes none [] noFetch emptyRun rfl

end NhlPipeline
